import Mathlib

/-!
Verification of the All Sky Camera image-selection backend.

The development shallowly embeds the selection core of the repository:
the sidereal-time calculator (`julian_date`, `siderial_time`,
`get_sidereal_time` in `tools.py`) and the image-selection engine
(`select_images` in `tools.py`, together with the `night_date` column
derived at catalogue load in `asc_website.py`).

Numeric quantities (Julian dates, sidereal times, sizes in megabytes)
are modelled over `ℚ`, so exact rational arithmetic stands in for
Python floats.  Python's `int()` on such a value is `pyTrunc`
(truncation toward zero) and Python's `%` with a positive divisor is
`fmod` (remainder with the divisor's sign).  The pandas data frame is a
`List ImageRecord`; column filters become `List.filter`, the
`groupby("night_date")` iteration becomes a pass over the sorted
distinct keys, and the `argsort()[:1]` choice becomes the earliest row
of minimal absolute difference.
-/

/-- Python `int()` applied to a numeric value: truncation toward zero. -/
def pyTrunc (q : ℚ) : ℤ := if 0 ≤ q then ⌊q⌋ else ⌈q⌉

/-- Python `%` with a positive divisor: `a - b * ⌊a / b⌋`, the remainder
carrying the divisor's sign. -/
def fmod (a b : ℚ) : ℚ := a - b * ⌊a / b⌋

/-- Embedding of `julian_date` from `tools.py`: the number of days since
1 January 4713 BC 12:00; `utc` is UTC in decimal hours, and with `utc = 0`
the result is the date at 12:00 UTC. -/
def julian_date (year month day : ℤ) (utc : ℚ) : ℚ :=
  let y : ℤ := if month > 2 then year else year - 1
  let m : ℤ := if month > 2 then month else month + 12
  let h : ℚ := utc / 24
  let db : ℤ × ℤ :=
    if year ≤ 1582 ∧ month ≤ 10 ∧ day ≤ 4 then
      (day, 0)
    else if year = 1582 ∧ month = 10 ∧ 4 < day ∧ day < 15 then
      (15, -10)
    else
      let a : ℤ := pyTrunc ((y : ℚ) / 100)
      (day, 2 - a + pyTrunc ((a : ℚ) / 4))
  ((pyTrunc ((365.25 : ℚ) * ((y : ℚ) + 4716)) : ℤ) : ℚ)
    + ((pyTrunc ((30.6001 : ℚ) * ((m : ℚ) + 1)) : ℤ) : ℚ)
    + (db.1 : ℚ) + h + (db.2 : ℚ) - 1524.5

/-- Embedding of `siderial_time` from `tools.py`: sidereal time in decimal
hours at the given longitude in decimal degrees; with `long = 0` the result
is Greenwich Mean Sidereal Time. -/
def siderial_time (year month day : ℤ) (utc long : ℚ) : ℚ :=
  let jd := julian_date year month day 0
  let t := (jd - 2451545.0) / 36525
  let st := (24110.54841 + 8640184.812866 * t + 0.093104 * t ^ 2 - 0.0000062 * t ^ 3) / 3600
  let st := st + 1.00273790935 * utc
  let st := st + long / 15
  fmod st 24

/-- A UTC timestamp, holding the fields of a Python `datetime` that the
code reads. -/
structure UTCTime where
  year : ℤ
  month : ℤ
  day : ℤ
  hour : ℕ
  minute : ℕ
  second : ℕ
  deriving DecidableEq, Repr

/-- Embedding of `get_sidereal_time` from `tools.py`: sidereal time in hours
for a given UTC time, at the fixed observatory longitude 138.60298 degrees. -/
def get_sidereal_time (utc_time : UTCTime) : ℚ :=
  let year := utc_time.year
  let month := utc_time.month
  let day := utc_time.day
  let utc : ℚ := (utc_time.hour : ℚ) + (utc_time.minute : ℚ) / 60 + (utc_time.second : ℚ) / 3600
  let long : ℚ := 138.60298
  siderial_time year month day utc long

/-- A calendar date: the value of a parsed `night_date` or of a request
date string. -/
structure CalDate where
  y : ℕ
  m : ℕ
  d : ℕ
  deriving DecidableEq, Repr

/-- Chronological order on calendar dates, as pandas timestamp comparison. -/
def CalDate.le (a b : CalDate) : Prop :=
  a.y < b.y ∨ (a.y = b.y ∧ (a.m < b.m ∨ (a.m = b.m ∧ a.d ≤ b.d)))

instance (a b : CalDate) : Decidable (CalDate.le a b) := by
  unfold CalDate.le
  infer_instance

/-- Boolean form of the chronological order on calendar dates. -/
def CalDate.leb (a b : CalDate) : Bool := decide (CalDate.le a b)

/-- Numeric value of a decimal digit character. -/
def digitVal (c : Char) : ℕ := c.toNat - 48

/-- Decimal reading of a string, applied to the pieces of a `YYYYMMDD` prefix. -/
def parseNat (s : String) : ℕ := s.data.foldl (fun acc c => acc * 10 + digitVal c) 0

/-- Interpretation of an 8-character `YYYYMMDD` string as a calendar date,
as `pd.to_datetime` does on the directory prefix. -/
def dateOfYYYYMMDD (s : String) : CalDate :=
  ⟨parseNat (s.take 4), parseNat ((s.drop 4).take 2), parseNat ((s.drop 6).take 2)⟩

/-- Derivation of the `night_date` column at catalogue load in
`asc_website.py`: the first 8 characters of `Directory`, interpreted as a
calendar date. -/
def deriveNightDate (directory : String) : CalDate := dateOfYYYYMMDD (directory.take 8)

/-- One catalogue row: the columns `Directory`, `Timestamp middle UTC` and
`Filesize (bytes)`, together with the derived `night_date` column. -/
structure ImageRecord where
  directory : String
  timestampMiddleUTC : UTCTime
  filesizeBytes : ℤ
  night_date : CalDate
  deriving DecidableEq, Repr

/-- A catalogue row as loaded in `asc_website.py`, its `night_date` derived
from the first 8 characters of the directory. -/
def loadRecord (directory : String) (ts : UTCTime) (fs : ℤ) : ImageRecord :=
  ⟨directory, ts, fs, deriveNightDate directory⟩

/-- Date-range filter of `select_images`:
`start_date <= night_date <= end_date`. -/
def dateFilter (df : List ImageRecord) (start_date end_date : CalDate) : List ImageRecord :=
  df.filter (fun r => CalDate.leb start_date r.night_date && CalDate.leb r.night_date end_date)

/-- Clear-sky filter of `select_images`: with `limit_clear_images` set, keep
rows whose `Filesize (bytes)` is between 10500000 and 11000000. -/
def clarityFilter (df : List ImageRecord) (limit_clear_images : Bool) : List ImageRecord :=
  if limit_clear_images then
    df.filter (fun r => decide (10500000 ≤ r.filesizeBytes ∧ r.filesizeBytes ≤ 11000000))
  else df

/-- Sidereal-time column of `select_images`: each surviving row paired with
`get_sidereal_time` of its `Timestamp middle UTC`. -/
def annotate (df : List ImageRecord) : List (ImageRecord × ℚ) :=
  df.map (fun r => (r, get_sidereal_time r.timestampMiddleUTC))

/-- Circular mod-24 distance of the nearest-match branch:
`min ((t - target) % 24) ((target - t) % 24)`. -/
def circDist (t target : ℚ) : ℚ := min (fmod (t - target) 24) (fmod (target - t) 24)

/-- Insertion of a date into a chronologically sorted list of dates. -/
def insertDate (d : CalDate) : List CalDate → List CalDate
  | [] => [d]
  | e :: rest => if CalDate.leb d e then d :: e :: rest else e :: insertDate d rest

/-- Chronological insertion sort of dates; pandas `groupby` iterates its
keys in this sorted order. -/
def sortDates : List CalDate → List CalDate
  | [] => []
  | d :: rest => insertDate d (sortDates rest)

/-- The distinct `night_date` keys of the annotated rows, in the sorted
order in which `groupby("night_date")` yields the night groups. -/
def nightKeys (df : List (ImageRecord × ℚ)) : List CalDate :=
  sortDates ((df.map (fun p => p.1.night_date)).dedup)

/-- The rows of one night group whose circular distance to `sidereal_start`
is under `time_limit`: the `valid_images` of one loop iteration of the
nearest-match branch. -/
def qualifiers (df : List (ImageRecord × ℚ)) (d : CalDate) (sidereal_start time_limit : ℚ) :
    List (ImageRecord × ℚ) :=
  (df.filter (fun p => p.1.night_date == d)).filter
    (fun p => decide (circDist p.2 sidereal_start < time_limit))

/-- Comparison step of the nearest-row choice: a candidate row against the
best row of the remaining group, keeping the earlier row unless the later
one is strictly closer. -/
def better (sidereal_start : ℚ) (a : ImageRecord × ℚ) :
    Option (ImageRecord × ℚ) → ImageRecord × ℚ
  | none => a
  | some q => if |q.2 - sidereal_start| < |a.2 - sidereal_start| then q else a

/-- The row of minimal absolute difference between its sidereal time and
`sidereal_start` (the `argsort()[:1]` choice of the source), the earliest
such row on ties; `none` exactly on an empty group. -/
def bestOf (sidereal_start : ℚ) : List (ImageRecord × ℚ) → Option (ImageRecord × ℚ)
  | [] => none
  | p :: rest => some (better sidereal_start p (bestOf sidereal_start rest))

/-- Nearest-match branch of `select_images`: one best row per night, nights
without a qualifying row skipped. -/
def selectNearest (df : List (ImageRecord × ℚ)) (sidereal_start time_limit : ℚ) :
    List (ImageRecord × ℚ) :=
  (nightKeys df).filterMap (fun d => bestOf sidereal_start (qualifiers df d sidereal_start time_limit))

/-- Range-match branch of `select_images`: all rows whose sidereal time lies
in the requested window, with wraparound when the window crosses 0/24. -/
def selectRange (df : List (ImageRecord × ℚ)) (sidereal_start sidereal_end : ℚ) :
    List (ImageRecord × ℚ) :=
  if sidereal_start < sidereal_end then
    df.filter (fun p => decide (sidereal_start ≤ p.2 ∧ p.2 ≤ sidereal_end))
  else
    df.filter (fun p => decide (sidereal_start ≤ p.2 ∨ p.2 ≤ sidereal_end))

/-- The rows `select_images` picks, before projecting out the paths and the
total size. -/
def chosenRecords (df : List ImageRecord) (start_date end_date : CalDate)
    (sidereal_start : ℚ) (sidereal_end : Option ℚ) (time_limit : ℚ)
    (limit_clear_images : Bool) : List (ImageRecord × ℚ) :=
  let df_filtered := annotate (clarityFilter (dateFilter df start_date end_date) limit_clear_images)
  match sidereal_end with
  | none => selectNearest df_filtered sidereal_start time_limit
  | some se => selectRange df_filtered sidereal_start se

/-- Embedding of `select_images` from `tools.py`: the list of selected image
paths and the total size in megabytes. -/
def select_images (df : List ImageRecord) (start_date end_date : CalDate)
    (sidereal_start : ℚ) (sidereal_end : Option ℚ) (time_limit : ℚ)
    (limit_clear_images : Bool) : List String × ℚ :=
  let chosen := chosenRecords df start_date end_date sidereal_start sidereal_end
    time_limit limit_clear_images
  (chosen.map (fun p => p.1.directory),
   chosen.foldl (fun acc p => acc + (p.1.filesizeBytes : ℚ) / (1000 * 1000)) 0)

/-- Rewriting of the mod-24 remainder through the fractional part. -/
theorem fmod_eq_mul_fract (a : ℚ) : fmod a 24 = 24 * Int.fract (a / 24) := by
  unfold fmod
  rw [Int.fract]
  ring

/-- Lower bound of the mod-24 remainder. -/
theorem fmod_nonneg24 (a : ℚ) : 0 ≤ fmod a 24 := by
  rw [fmod_eq_mul_fract]
  have h := Int.fract_nonneg (a / 24)
  nlinarith

/-- Upper bound of the mod-24 remainder. -/
theorem fmod_lt24 (a : ℚ) : fmod a 24 < 24 := by
  rw [fmod_eq_mul_fract]
  have h := Int.fract_lt_one (a / 24)
  have h0 := Int.fract_nonneg (a / 24)
  nlinarith

/-- Claim C6: for every UTC timestamp, `get_sidereal_time` returns a value
in the half-open interval `[0, 24)`. -/
theorem C6_get_sidereal_time_range (t : UTCTime) :
    0 ≤ get_sidereal_time t ∧ get_sidereal_time t < 24 := by
  unfold get_sidereal_time siderial_time
  exact ⟨fmod_nonneg24 _, fmod_lt24 _⟩

/-- Claim C10: with `sidereal_end` provided, the result of `select_images`
does not depend on the `time_limit` argument. -/
theorem C10_range_independent_of_time_limit (df : List ImageRecord)
    (sd ed : CalDate) (ss se tl1 tl2 : ℚ) (lci : Bool) :
    select_images df sd ed ss (some se) tl1 lci
      = select_images df sd ed ss (some se) tl2 lci := rfl

/-- A 10000000-byte catalogue row, under the clear-sky size band. -/
def imgSmall : ImageRecord := loadRecord "20200101_a.jpg" ⟨2020, 1, 1, 14, 0, 0⟩ 10000000

/-- A 10800000-byte catalogue row, inside the clear-sky size band. -/
def imgClear : ImageRecord := loadRecord "20200101_b.jpg" ⟨2020, 1, 1, 15, 0, 0⟩ 10800000

/-- Claim C8: with `limit_clear_images` set, the clarity filter keeps exactly
the records whose file size lies in the closed interval
`[10500000, 11000000]`; a 10000000-byte record is excluded and a
10800000-byte record is kept. -/
theorem C8_clarity_filter (df : List ImageRecord) (r : ImageRecord) :
    (r ∈ clarityFilter df true ↔
        r ∈ df ∧ 10500000 ≤ r.filesizeBytes ∧ r.filesizeBytes ≤ 11000000) ∧
    imgSmall ∉ clarityFilter [imgSmall] true ∧
    imgClear ∈ clarityFilter [imgClear] true := by
  refine ⟨?_, by decide, by decide⟩
  unfold clarityFilter
  simp [List.mem_filter]

/-- Claim C5: `night_date` is the first 8 characters of the directory read
as a calendar date, and the date filter keeps exactly the records with
`start_date <= night_date <= end_date`, inclusive at both ends. -/
theorem C5_date_filter (df : List ImageRecord) (sd ed : CalDate) (r : ImageRecord) :
    (∀ dir ts fs, (loadRecord dir ts fs).night_date = dateOfYYYYMMDD (dir.take 8)) ∧
    (r ∈ dateFilter df sd ed ↔
        r ∈ df ∧ CalDate.le sd r.night_date ∧ CalDate.le r.night_date ed) := by
  refine ⟨fun _ _ _ => rfl, ?_⟩
  unfold dateFilter
  simp [List.mem_filter, CalDate.leb, and_assoc]

/-- The nearest-row choice is `none` exactly on an empty group. -/
theorem bestOf_eq_none_iff (ss : ℚ) (l : List (ImageRecord × ℚ)) :
    bestOf ss l = none ↔ l = [] := by
  cases l <;> simp [bestOf]

/-- The chosen row belongs to the group. -/
theorem bestOf_mem (ss : ℚ) (l : List (ImageRecord × ℚ)) (p : ImageRecord × ℚ)
    (h : bestOf ss l = some p) : p ∈ l := by
  induction l with
  | nil => simp [bestOf] at h
  | cons a rest ih =>
    rw [show bestOf ss (a :: rest) = some (better ss a (bestOf ss rest)) from rfl] at h
    injection h with h
    cases hb : bestOf ss rest with
    | none =>
      rw [hb] at h
      simp only [better] at h
      subst h
      exact List.mem_cons_self a rest
    | some q =>
      rw [hb] at h
      simp only [better] at h
      by_cases hlt : |q.2 - ss| < |a.2 - ss|
      · rw [if_pos hlt] at h
        subst h
        exact List.mem_cons_of_mem a (ih hb)
      · rw [if_neg hlt] at h
        subst h
        exact List.mem_cons_self a rest

/-- The chosen row minimises the absolute difference to `sidereal_start`
over its group. -/
theorem bestOf_min (ss : ℚ) (l : List (ImageRecord × ℚ)) :
    ∀ p, bestOf ss l = some p → ∀ r ∈ l, |p.2 - ss| ≤ |r.2 - ss| := by
  induction l with
  | nil => intro p h; simp [bestOf] at h
  | cons a rest ih =>
    intro p h r hr
    rw [show bestOf ss (a :: rest) = some (better ss a (bestOf ss rest)) from rfl] at h
    injection h with h
    cases hb : bestOf ss rest with
    | none =>
      have hrest := (bestOf_eq_none_iff ss rest).mp hb
      rw [hb] at h
      simp only [better] at h
      subst h
      subst hrest
      have hra : r = a := by simpa using hr
      subst hra
      exact le_refl _
    | some q =>
      rw [hb] at h
      simp only [better] at h
      by_cases hlt : |q.2 - ss| < |a.2 - ss|
      · rw [if_pos hlt] at h
        subst h
        rcases List.mem_cons.mp hr with hra | hrr
        · subst hra
          exact le_of_lt hlt
        · exact ih q hb r hrr
      · rw [if_neg hlt] at h
        subst h
        rcases List.mem_cons.mp hr with hra | hrr
        · rw [hra]
        · exact le_trans (not_lt.mp hlt) (ih q hb r hrr)

/-- Membership in the insertion step of the date sort. -/
theorem mem_insertDate (x d : CalDate) (l : List CalDate) :
    x ∈ insertDate d l ↔ x = d ∨ x ∈ l := by
  induction l with
  | nil => simp [insertDate]
  | cons e rest ih =>
    unfold insertDate
    by_cases h : CalDate.leb d e
    · simp only [h, if_true, List.mem_cons]
    · simp only [h, if_false, List.mem_cons, ih, Bool.false_eq_true]
      tauto

/-- Sorting the night keys does not change their membership. -/
theorem mem_sortDates (x : CalDate) (l : List CalDate) : x ∈ sortDates l ↔ x ∈ l := by
  induction l with
  | nil => simp [sortDates]
  | cons d rest ih => simp [sortDates, mem_insertDate, ih]

/-- A date is a night key exactly when some annotated row carries it. -/
theorem mem_nightKeys (df : List (ImageRecord × ℚ)) (d : CalDate) :
    d ∈ nightKeys df ↔ ∃ p ∈ df, p.1.night_date = d := by
  unfold nightKeys
  rw [mem_sortDates, List.mem_dedup]
  simp [List.mem_map]

/-- A row qualifies for night `d` exactly when it carries that night and its
circular distance to the target is under the limit. -/
theorem mem_qualifiers (df : List (ImageRecord × ℚ)) (d : CalDate) (ss tl : ℚ)
    (p : ImageRecord × ℚ) :
    p ∈ qualifiers df d ss tl ↔ p ∈ df ∧ p.1.night_date = d ∧ circDist p.2 ss < tl := by
  unfold qualifiers
  simp only [List.mem_filter, decide_eq_true_eq, beq_iff_eq]
  tauto

/-- Length of a `filterMap` as the count of arguments sent to `some`. -/
theorem length_filterMap_isSome {α β : Type} (f : α → Option β) (l : List α) :
    (l.filterMap f).length = (l.filter (fun a => (f a).isSome)).length := by
  induction l with
  | nil => rfl
  | cons a rest ih =>
    cases hf : f a with
    | none => simp [List.filterMap_cons, List.filter_cons, hf, ih]
    | some b => simp [List.filterMap_cons, List.filter_cons, hf, ih]

/-- Claim C1: nearest-match policy. With `sidereal_end` absent, `select_images`
works night by night over the date- and clarity-filtered annotated rows: a row
qualifies for its night exactly when its circular mod-24 distance to
`sidereal_start` is strictly under `time_limit`; a night with no qualifying row
contributes nothing; every other night contributes exactly one image path, that
of a qualifying row of minimal absolute (non-circular) difference between its
sidereal time and `sidereal_start`; and every selected path comes from some
qualifying row of some night. -/
theorem C1_nearest_match (df : List ImageRecord) (sd ed : CalDate) (ss tl : ℚ) (lci : Bool) :
    (∀ p d, p ∈ qualifiers (annotate (clarityFilter (dateFilter df sd ed) lci)) d ss tl ↔
        p ∈ annotate (clarityFilter (dateFilter df sd ed) lci) ∧
        p.1.night_date = d ∧ circDist p.2 ss < tl) ∧
    (select_images df sd ed ss none tl lci).1.length =
      ((nightKeys (annotate (clarityFilter (dateFilter df sd ed) lci))).filter
        (fun d => !(qualifiers (annotate (clarityFilter (dateFilter df sd ed) lci)) d ss tl).isEmpty)).length ∧
    (∀ d ∈ nightKeys (annotate (clarityFilter (dateFilter df sd ed) lci)),
      qualifiers (annotate (clarityFilter (dateFilter df sd ed) lci)) d ss tl ≠ [] →
        ∃ p ∈ qualifiers (annotate (clarityFilter (dateFilter df sd ed) lci)) d ss tl,
          p.1.directory ∈ (select_images df sd ed ss none tl lci).1 ∧
          ∀ q ∈ qualifiers (annotate (clarityFilter (dateFilter df sd ed) lci)) d ss tl,
            |p.2 - ss| ≤ |q.2 - ss|) ∧
    ∀ s ∈ (select_images df sd ed ss none tl lci).1,
      ∃ d ∈ nightKeys (annotate (clarityFilter (dateFilter df sd ed) lci)),
        ∃ p ∈ qualifiers (annotate (clarityFilter (dateFilter df sd ed) lci)) d ss tl,
          p.1.directory = s := by
  have hsel : (select_images df sd ed ss none tl lci).1
      = (nightKeys (annotate (clarityFilter (dateFilter df sd ed) lci))).filterMap
          (fun d => (bestOf ss (qualifiers (annotate (clarityFilter (dateFilter df sd ed) lci)) d ss tl)).map
            (fun p => p.1.directory)) := by
    show ((nightKeys (annotate (clarityFilter (dateFilter df sd ed) lci))).filterMap
      (fun d => bestOf ss (qualifiers (annotate (clarityFilter (dateFilter df sd ed) lci)) d ss tl))).map
        (fun p => p.1.directory) = _
    rw [List.map_filterMap]
  refine ⟨fun p d => mem_qualifiers _ _ _ _ _, ?_, ?_, ?_⟩
  · rw [hsel, length_filterMap_isSome]
    congr 1
    apply List.filter_congr
    intro d _
    cases hq : qualifiers (annotate (clarityFilter (dateFilter df sd ed) lci)) d ss tl with
    | nil => simp [bestOf]
    | cons a rest => simp [bestOf]
  · intro d hd hne
    obtain ⟨p, hp⟩ : ∃ p, bestOf ss
        (qualifiers (annotate (clarityFilter (dateFilter df sd ed) lci)) d ss tl) = some p := by
      cases hq : bestOf ss (qualifiers (annotate (clarityFilter (dateFilter df sd ed) lci)) d ss tl) with
      | none => exact absurd ((bestOf_eq_none_iff _ _).mp hq) hne
      | some p => exact ⟨p, rfl⟩
    refine ⟨p, bestOf_mem _ _ _ hp, ?_, bestOf_min _ _ p hp⟩
    rw [hsel]
    exact List.mem_filterMap.mpr ⟨d, hd, by rw [hp]; rfl⟩
  · intro s hs
    rw [hsel] at hs
    obtain ⟨d, hd, hfd⟩ := List.mem_filterMap.mp hs
    cases hq : bestOf ss (qualifiers (annotate (clarityFilter (dateFilter df sd ed) lci)) d ss tl) with
    | none => rw [hq] at hfd; simp at hfd
    | some p =>
      rw [hq] at hfd
      simp only [Option.map_some'] at hfd
      injection hfd with hfd
      exact ⟨d, hd, p, bestOf_mem _ _ _ hq, hfd⟩


theorem gst_nonneg (t : UTCTime) : 0 ≤ get_sidereal_time t := by
  unfold get_sidereal_time siderial_time
  exact fmod_nonneg24 _

/-- Upper bound of the sidereal-time calculator, shared by several claims. -/
theorem gst_lt24 (t : UTCTime) : get_sidereal_time t < 24 := by
  unfold get_sidereal_time siderial_time
  exact fmod_lt24 _

/-- A 10600000-byte catalogue row of the night 2020-01-01. -/
def imgA : ImageRecord := loadRecord "20200101_103000.jpg" ⟨2020, 1, 1, 10, 30, 0⟩ 10600000

/-- A 10700000-byte catalogue row of the night 2020-01-01. -/
def imgB : ImageRecord := loadRecord "20200101_113000.jpg" ⟨2020, 1, 1, 11, 30, 0⟩ 10700000

/-- Claim C2: range-match policy. With `sidereal_end` provided, the selected
paths are exactly those of surviving rows whose sidereal time lies in the
closed interval from `sidereal_start` to `sidereal_end` when
`sidereal_start < sidereal_end`, and in the wraparound window
`t >= sidereal_start` or `t <= sidereal_end` otherwise; in particular two
rows with sidereal times 23.9 and 0.1 are both kept by the range branch for
the window 23.5 to 0.5. -/
theorem C2_range_match (df : List ImageRecord) (sd ed : CalDate) (ss se tl : ℚ) (lci : Bool) :
    (∀ s, s ∈ (select_images df sd ed ss (some se) tl lci).1 ↔
      ∃ p ∈ annotate (clarityFilter (dateFilter df sd ed) lci),
        p.1.directory = s ∧
        ((ss < se ∧ ss ≤ p.2 ∧ p.2 ≤ se) ∨ (¬ss < se ∧ (ss ≤ p.2 ∨ p.2 ≤ se)))) ∧
    selectRange [(imgA, 23.9), (imgB, 0.1)] 23.5 0.5 = [(imgA, 23.9), (imgB, 0.1)] := by
  constructor
  · intro s
    have hsel : (select_images df sd ed ss (some se) tl lci).1
        = (selectRange (annotate (clarityFilter (dateFilter df sd ed) lci)) ss se).map
            (fun p => p.1.directory) := rfl
    rw [hsel]
    unfold selectRange
    by_cases h : ss < se
    · rw [if_pos h]
      simp only [List.mem_map, List.mem_filter, decide_eq_true_eq]
      constructor
      · rintro ⟨p, ⟨hp, hc⟩, hdir⟩
        exact ⟨p, hp, hdir, Or.inl ⟨h, hc⟩⟩
      · rintro ⟨p, hp, hdir, hc | hc⟩
        · exact ⟨p, ⟨hp, hc.2⟩, hdir⟩
        · exact absurd h hc.1
    · rw [if_neg h]
      simp only [List.mem_map, List.mem_filter, decide_eq_true_eq]
      constructor
      · rintro ⟨p, ⟨hp, hc⟩, hdir⟩
        exact ⟨p, hp, hdir, Or.inr ⟨h, hc⟩⟩
      · rintro ⟨p, hp, hdir, hc | hc⟩
        · exact absurd hc.1 h
        · exact ⟨p, ⟨hp, hc.2⟩, hdir⟩
  · unfold selectRange
    rw [if_neg (by norm_num : ¬(23.5 : ℚ) < 0.5)]
    have hA : (23.5 : ℚ) ≤ 23.9 ∨ (23.9 : ℚ) ≤ 0.5 := Or.inl (by norm_num)
    have hB : (23.5 : ℚ) ≤ 0.1 ∨ (0.1 : ℚ) ≤ 0.5 := Or.inr (by norm_num)
    simp [List.filter_cons, hA, hB]

/-- The running size accumulation equals the sum of the sizes over a
million. -/
theorem foldl_size_eq (l : List (ImageRecord × ℚ)) (acc : ℚ) :
    l.foldl (fun acc p => acc + (p.1.filesizeBytes : ℚ) / (1000 * 1000)) acc
      = acc + (l.map (fun p => (p.1.filesizeBytes : ℚ))).sum / 1000000 := by
  induction l generalizing acc with
  | nil => simp
  | cons p rest ih =>
    rw [List.foldl_cons, ih, List.map_cons, List.sum_cons]
    ring

/-- Claim C9: the returned `total_size_mb` is the sum of the selected rows'
`Filesize (bytes)` divided by 1000000 (decimal megabytes); two selected
images of 10600000 and 10700000 bytes total exactly 21.3. -/
theorem C9_total_size (df : List ImageRecord) (sd ed : CalDate) (ss tl : ℚ)
    (se : Option ℚ) (lci : Bool) :
    (select_images df sd ed ss se tl lci).2 =
      ((chosenRecords df sd ed ss se tl lci).map (fun p => (p.1.filesizeBytes : ℚ))).sum
        / 1000000 ∧
    (select_images [imgA, imgB] ⟨2020, 1, 1⟩ ⟨2020, 1, 2⟩ 0 (some 24) (1/2) false).2
      = 21.3 := by
  constructor
  · have h : (select_images df sd ed ss se tl lci).2
        = (chosenRecords df sd ed ss se tl lci).foldl
            (fun acc p => acc + (p.1.filesizeBytes : ℚ) / (1000 * 1000)) 0 := rfl
    rw [h, foldl_size_eq]
    ring
  · have hpre : chosenRecords [imgA, imgB] ⟨2020, 1, 1⟩ ⟨2020, 1, 2⟩ 0 (some 24) (1/2) false
        = selectRange [(imgA, get_sidereal_time imgA.timestampMiddleUTC),
            (imgB, get_sidereal_time imgB.timestampMiddleUTC)] 0 24 := by
      unfold chosenRecords
      have hdf : dateFilter [imgA, imgB] ⟨2020, 1, 1⟩ ⟨2020, 1, 2⟩ = [imgA, imgB] := by decide
      rw [hdf]
      rfl
    have hsr : selectRange [(imgA, get_sidereal_time imgA.timestampMiddleUTC),
          (imgB, get_sidereal_time imgB.timestampMiddleUTC)] 0 24
        = [(imgA, get_sidereal_time imgA.timestampMiddleUTC),
            (imgB, get_sidereal_time imgB.timestampMiddleUTC)] := by
      unfold selectRange
      rw [if_pos (by norm_num : (0 : ℚ) < 24)]
      have hA : (0 : ℚ) ≤ get_sidereal_time imgA.timestampMiddleUTC ∧
          get_sidereal_time imgA.timestampMiddleUTC ≤ 24 :=
        ⟨gst_nonneg _, le_of_lt (gst_lt24 _)⟩
      have hB : (0 : ℚ) ≤ get_sidereal_time imgB.timestampMiddleUTC ∧
          get_sidereal_time imgB.timestampMiddleUTC ≤ 24 :=
        ⟨gst_nonneg _, le_of_lt (gst_lt24 _)⟩
      simp [List.filter_cons, hA.1, hA.2, hB.1, hB.2]
    have h2 : (select_images [imgA, imgB] ⟨2020, 1, 1⟩ ⟨2020, 1, 2⟩ 0 (some 24) (1/2) false).2
        = (chosenRecords [imgA, imgB] ⟨2020, 1, 1⟩ ⟨2020, 1, 2⟩ 0 (some 24) (1/2) false).foldl
            (fun acc p => acc + (p.1.filesizeBytes : ℚ) / (1000 * 1000)) 0 := rfl
    rw [h2, hpre, hsr]
    norm_num [List.foldl_cons, List.foldl_nil, imgA, imgB, loadRecord]

/-- Claim C7: when every record in the requested date range fails the
clarity filter, `select_images` returns the empty list and total size 0,
without any error; the embedding is a total function, so no input raises. -/
theorem C7_empty_result (df : List ImageRecord) (sd ed : CalDate) (ss tl : ℚ) (se : Option ℚ)
    (h : ∀ r ∈ dateFilter df sd ed, ¬(10500000 ≤ r.filesizeBytes ∧ r.filesizeBytes ≤ 11000000)) :
    select_images df sd ed ss se tl true = ([], 0) := by
  have hcf : clarityFilter (dateFilter df sd ed) true = [] := by
    unfold clarityFilter
    rw [if_pos rfl, List.filter_eq_nil_iff]
    intro a ha
    simpa using h a ha
  have hch : chosenRecords df sd ed ss se tl true = [] := by
    unfold chosenRecords
    rw [hcf]
    cases se with
    | none => rfl
    | some s =>
      show selectRange (annotate []) ss s = []
      unfold selectRange
      split <;> rfl
  simp only [select_images, hch, List.map_nil, List.foldl_nil]


/-- Comparison definition, modelled from claim C4's words rather than the
source: the Julian correction `b = 0` for every date on or before
1582-10-04, the clamp to day 15 with `b = -10` inside the reform gap
1582-10-05 through 1582-10-14, and otherwise the Gregorian correction
`b = 2 - a + floor(a/4)` with `a = floor(year/100)`. -/
def julian_date_spec (year month day : ℤ) (utc : ℚ) : ℚ :=
  let y : ℤ := if month > 2 then year else year - 1
  let m : ℤ := if month > 2 then month else month + 12
  let h : ℚ := utc / 24
  let db : ℤ × ℤ :=
    if year < 1582 ∨ (year = 1582 ∧ (month < 10 ∨ (month = 10 ∧ day ≤ 4))) then
      (day, 0)
    else if year = 1582 ∧ month = 10 ∧ 5 ≤ day ∧ day ≤ 14 then
      (15, -10)
    else
      let a : ℤ := ⌊(year : ℚ) / 100⌋
      (day, 2 - a + ⌊(a : ℚ) / 4⌋)
  ((pyTrunc ((365.25 : ℚ) * ((y : ℚ) + 4716)) : ℤ) : ℚ)
    + ((pyTrunc ((30.6001 : ℚ) * ((m : ℚ) + 1)) : ℤ) : ℚ)
    + (db.1 : ℚ) + h + (db.2 : ℚ) - 1524.5

/-- The day-and-correction pair `(d, b)` that the branching of
`julian_date` computes. -/
def calendarCorrection (year month day : ℤ) : ℤ × ℤ :=
  if year ≤ 1582 ∧ month ≤ 10 ∧ day ≤ 4 then
    (day, 0)
  else if year = 1582 ∧ month = 10 ∧ 4 < day ∧ day < 15 then
    (15, -10)
  else
    let a : ℤ := pyTrunc (((if month > 2 then year else year - 1 : ℤ)) / 100 : ℚ)
    (day, 2 - a + pyTrunc ((a : ℚ) / 4))

/-- Claim C4 (amended): `julian_date` takes the Julian branch `b = 0`
exactly when `year <= 1582` and `month <= 10` and `day <= 4` hold jointly (a
conjunction, not a datewise comparison with 1582-10-04); clamps the day to
15 with `b = -10` for 1582-10-05 through 1582-10-14; and otherwise applies
the Gregorian correction `b = 2 - a + trunc(a/4)` with `a = trunc(y/100)`
computed from the month-adjusted year `y`, not from `year` itself. -/
theorem C4_calendar_correction (year month day : ℤ) (utc : ℚ) :
    julian_date year month day utc =
      ((pyTrunc ((365.25 : ℚ) * ((((if month > 2 then year else year - 1 : ℤ)) : ℚ) + 4716)) : ℤ) : ℚ)
        + ((pyTrunc ((30.6001 : ℚ) * ((((if month > 2 then month else month + 12 : ℤ)) : ℚ) + 1)) : ℤ) : ℚ)
        + ((calendarCorrection year month day).1 : ℚ) + utc / 24
        + ((calendarCorrection year month day).2 : ℚ) - 1524.5 := by
  simp only [julian_date, calendarCorrection]

/-- Claim C4 fails at 1581-11-01: the date lies before the calendar reform,
yet the code's conjunctive test sends it to the Gregorian branch and returns
2298812.5, while the rule the claim states gives `b = 0` and 2298822.5. -/
theorem C4_julian_reform_cex :
    julian_date 1581 11 1 0 = 2298812.5 ∧ julian_date_spec 1581 11 1 0 = 2298822.5 ∧
    julian_date 1581 11 1 0 ≠ julian_date_spec 1581 11 1 0 := by
  refine ⟨by norm_num [julian_date, pyTrunc], by norm_num [julian_date_spec, pyTrunc], ?_⟩
  norm_num [julian_date, julian_date_spec, pyTrunc]

/-- Claim C3 fails as stated: a directory beginning "20200102" derives the
`night_date` 2020-01-02, not 2020-01-01. -/
theorem C3_night_date_cex :
    deriveNightDate "20200102_120000.jpg" = ⟨2020, 1, 2⟩ ∧
    deriveNightDate "20200102_120000.jpg" ≠ ⟨2020, 1, 1⟩ := by
  exact ⟨by decide, by decide⟩

/-- Claim C3 (amended): a record whose directory begins "20200102" derives
`night_date` 2020-01-02 and passes the date filter when
`start_date = 2020-01-02`, while a record whose directory begins "20200101"
— the folder holding the images captured before 2020-01-02 12:00 local —
derives `night_date` 2020-01-01 and is excluded by that same filter. -/
theorem C3_night_boundary (dir1 dir2 : String) (ts1 ts2 : UTCTime) (fs1 fs2 : ℤ)
    (ed : CalDate) (h1 : dir1.take 8 = "20200102") (h2 : dir2.take 8 = "20200101")
    (hed : CalDate.le ⟨2020, 1, 2⟩ ed) :
    deriveNightDate dir1 = ⟨2020, 1, 2⟩ ∧
    deriveNightDate dir2 = ⟨2020, 1, 1⟩ ∧
    loadRecord dir1 ts1 fs1 ∈
      dateFilter [loadRecord dir1 ts1 fs1, loadRecord dir2 ts2 fs2] ⟨2020, 1, 2⟩ ed ∧
    loadRecord dir2 ts2 fs2 ∉
      dateFilter [loadRecord dir1 ts1 fs1, loadRecord dir2 ts2 fs2] ⟨2020, 1, 2⟩ ed := by
  have hd1 : deriveNightDate dir1 = ⟨2020, 1, 2⟩ := by
    unfold deriveNightDate
    rw [h1]
    decide
  have hd2 : deriveNightDate dir2 = ⟨2020, 1, 1⟩ := by
    unfold deriveNightDate
    rw [h2]
    decide
  refine ⟨hd1, hd2, ?_, ?_⟩
  · unfold dateFilter
    refine List.mem_filter.mpr ⟨List.mem_cons_self _ _, ?_⟩
    show (CalDate.leb ⟨2020, 1, 2⟩ (loadRecord dir1 ts1 fs1).night_date
        && CalDate.leb (loadRecord dir1 ts1 fs1).night_date ed) = true
    have hn : (loadRecord dir1 ts1 fs1).night_date = ⟨2020, 1, 2⟩ := hd1
    rw [hn]
    rw [Bool.and_eq_true]
    exact ⟨by decide, decide_eq_true hed⟩
  · intro hmem
    have h := (List.mem_filter.mp hmem).2
    have hn : (loadRecord dir2 ts2 fs2).night_date = ⟨2020, 1, 1⟩ := hd2
    simp only [hn, CalDate.leb, Bool.and_eq_true, decide_eq_true_eq] at h
    exact absurd h.1 (by decide)

/-- Witness for the amended claim C3, at two concrete records of the nights
2020-01-02 and 2020-01-01 with the date range starting 2020-01-02. -/
theorem C3_night_boundary_w :
    deriveNightDate "20200102_031500.jpg" = ⟨2020, 1, 2⟩ ∧
    deriveNightDate "20200101_031500.jpg" = ⟨2020, 1, 1⟩ ∧
    loadRecord "20200102_031500.jpg" ⟨2020, 1, 2, 3, 15, 0⟩ 10600000 ∈
      dateFilter [loadRecord "20200102_031500.jpg" ⟨2020, 1, 2, 3, 15, 0⟩ 10600000,
        loadRecord "20200101_031500.jpg" ⟨2020, 1, 1, 3, 15, 0⟩ 10700000] ⟨2020, 1, 2⟩ ⟨2020, 1, 3⟩ ∧
    loadRecord "20200101_031500.jpg" ⟨2020, 1, 1, 3, 15, 0⟩ 10700000 ∉
      dateFilter [loadRecord "20200102_031500.jpg" ⟨2020, 1, 2, 3, 15, 0⟩ 10600000,
        loadRecord "20200101_031500.jpg" ⟨2020, 1, 1, 3, 15, 0⟩ 10700000] ⟨2020, 1, 2⟩ ⟨2020, 1, 3⟩ :=
  C3_night_boundary "20200102_031500.jpg" "20200101_031500.jpg"
    ⟨2020, 1, 2, 3, 15, 0⟩ ⟨2020, 1, 1, 3, 15, 0⟩ 10600000 10700000 ⟨2020, 1, 3⟩
    (by decide) (by decide) (by decide)

/-- Witness for claim C7, at a one-record catalogue whose single image fails
the clarity filter: the result is the empty list with total size 0. -/
theorem C7_empty_result_w :
    select_images [imgSmall] ⟨2020, 1, 1⟩ ⟨2020, 1, 2⟩ 10 none (1/2) true = ([], 0) :=
  C7_empty_result [imgSmall] ⟨2020, 1, 1⟩ ⟨2020, 1, 2⟩ 10 (1/2) none (by decide)
